import Mathlib

/-! Subscription cost aggregation: `internal/store/postgres.go` and the handler
`Aggregate` of `internal/handlers/subscriptions.go`.

A shallow embedding of the period arithmetic (`monthsInclusive`, `maxTime`), of
`PostgresRepo.AggregateSum` with the part of the database boundary that the aggregation
depends on (the `WHERE` clause it builds and the arguments it binds), of the methods
`Update` and `Delete`, and of `Handler.Aggregate` with `parseMonthYear`.

Modelling conventions.

* `time.Time` values are taken in one fixed time zone and are represented by their civil
  fields.  On well-formed values the order of instants is the lexicographic order of
  `(year, month, day, nanosecond of day)`, which is how `Before` and `After` are defined.
* Go's `int` is taken to be 64 bits wide.  The year returned by `Time.Date` is far below
  `2 ^ 40` in absolute value, so the arithmetic of `monthsInclusive` is exact; the product
  `months * price` and the `int64` accumulator are reduced with `toInt64`.
* The rows of the `subscriptions` table are a list of `Subscription` values; the query
  yields the matching rows in table order.  A `DATE` column holds the midnight of its day,
  and the comparisons of the `WHERE` clause are comparisons of instants.
* In `AggregateSum` the failure of the database that is represented is the rejection of
  a statement whose placeholders do not agree with the bound arguments; a lost
  connection, a failed `Beginx` or a failed scan are outside the embedding.  In `Update`
  and `Delete` the error of `db.Exec`, whatever its cause, is a parameter.
* The repository of the handler and `uuid.Parse` are parameters of `Aggregate`.
-/

namespace Subscriptions

/-! ## Time -/

/-- A `time.Time` in a fixed time zone, by its civil fields. -/
structure Time where
  /-- Calendar year, as returned by `Date()`. -/
  year : Int
  /-- Calendar month, `time.Month`: January is 1. -/
  month : Int
  /-- Day of the month. -/
  day : Int
  /-- Nanoseconds elapsed since midnight. -/
  nsec : Int
  deriving DecidableEq, Repr

namespace Time

/-- Leap years of the proleptic Gregorian calendar. -/
def isLeap (y : Int) : Bool :=
  y % 4 == 0 && (y % 100 != 0 || y % 400 == 0)

/-- Number of days of month `m` in year `y`. -/
def daysIn (y m : Int) : Int :=
  if m == 2 then (if isLeap y then 29 else 28)
  else if m == 4 || m == 6 || m == 9 || m == 11 then 30
  else 31

/-- Well-formed civil fields: a real calendar day and a time of day. -/
def valid (t : Time) : Prop :=
  1 ≤ t.month ∧ t.month ≤ 12 ∧ 1 ≤ t.day ∧ t.day ≤ daysIn t.year t.month ∧
    0 ≤ t.nsec ∧ t.nsec < 86400000000000

instance (t : Time) : Decidable t.valid := by
  unfold valid; infer_instance

/-- The method `t.Before(u)`: the instant `t` is strictly earlier than `u`. -/
def Before (t u : Time) : Bool :=
  decide (t.year < u.year ∨ (t.year = u.year ∧ (t.month < u.month ∨ (t.month = u.month ∧
    (t.day < u.day ∨ (t.day = u.day ∧ t.nsec < u.nsec))))))

/-- The method `t.After(u)`: the instant `t` is strictly later than `u`. -/
def After (t u : Time) : Bool :=
  decide (u.year < t.year ∨ (u.year = t.year ∧ (u.month < t.month ∨ (u.month = t.month ∧
    (u.day < t.day ∨ (u.day = t.day ∧ u.nsec < t.nsec))))))

/-- A month-date: midnight of the first day of a month. -/
def isMonthDate (t : Time) : Prop :=
  t.valid ∧ t.day = 1 ∧ t.nsec = 0

instance (t : Time) : Decidable t.isMonthDate := by
  unfold isMonthDate; infer_instance

/-- The calendar month of `t` is strictly earlier than the calendar month of `u`: the
order of the pairs `(year, month)`, the day and the time of day being ignored. -/
def monthBefore (t u : Time) : Bool :=
  decide (t.year < u.year ∨ (t.year = u.year ∧ t.month < u.month))

/-- Position of the calendar month of `t` on the line of all months. -/
def monthIndex (t : Time) : Int :=
  t.year * 12 + t.month

/-- The shorthand `time.Date(y, m, d, 0, 0, 0, 0, loc)`. -/
def date (y m d : Int) : Time :=
  { year := y, month := m, day := d, nsec := 0 }

end Time

/-! ## Helpers of `postgres.go` -/

/-- The function `maxTime`: the later of two instants, the second one on a tie. -/
def maxTime (a b : Time) : Time :=
  if a.After b then a else b

/-- The function `monthsInclusive`. -/
def monthsInclusive (a b : Time) : Int :=
  if b.Before a then 0
  else
    let y1 := a.year
    let m1 := a.month
    let y2 := b.year
    let m2 := b.month
    (y2 - y1) * 12 + (m2 - m1) + 1

/-! ## Machine integers -/

/-- Reduction of an integer to the two's-complement range of `int64` (and of `int`). -/
def toInt64 (x : Int) : Int :=
  (x + 2 ^ 63) % 2 ^ 64 - 2 ^ 63

/-- The values that an `int64` represents exactly. -/
def fitsInt64 (x : Int) : Prop :=
  -(2 ^ 63) ≤ x ∧ x < 2 ^ 63

instance (x : Int) : Decidable (fitsInt64 x) := by
  unfold fitsInt64; infer_instance

/-! ## Data model -/

/-- The type `uuid.UUID`, an opaque identifier compared by equality. -/
abbrev UUID := Nat

/-- The struct `model.Subscription`, one row of the table `subscriptions`. -/
structure Subscription where
  ID : UUID
  ServiceName : String
  Price : Int
  UserID : UUID
  StartDate : Time
  EndDate : Option Time
  deriving DecidableEq, Repr

/-- The struct `sql.NullTime`: `Time` is meaningful only when `Valid` is set. -/
structure NullTime where
  Time : Time
  Valid : Bool
  deriving DecidableEq, Repr

/-- The struct `row` declared inside `AggregateSum`: the three selected columns. -/
structure row where
  Price : Int
  StartDate : Time
  EndDate : NullTime
  deriving DecidableEq, Repr

/-- What `rows.StructScan(&rrow)` stores for a table row: a SQL `NULL` end date becomes an
invalid `NullTime` holding the zero time. -/
def scanRow (s : Subscription) : row :=
  { Price := s.Price
    StartDate := s.StartDate
    EndDate :=
      match s.EndDate with
      | none => { Time := Time.date 1 1 1, Valid := false }
      | some t => { Time := t, Valid := true } }

/-! ## The database boundary -/

/-- A value bound to a positional parameter of a statement. -/
inductive Arg where
  | time (t : Time)
  | uuid (u : UUID)
  | text (s : String)
  deriving DecidableEq, Repr

/-- The conjuncts of the `WHERE` clause that `AggregateSum` can emit; `n` is the number
written after `$` in the query text. -/
inductive Cond where
  /-- The text `(end_date IS NULL OR end_date >= $n)`. -/
  | endDateNullOrGe (n : Nat)
  /-- The text `start_date <= $n`. -/
  | startDateLe (n : Nat)
  /-- The text `user_id = $n`. -/
  | userIdEq (n : Nat)
  /-- The text `service_name = $n`. -/
  | serviceNameEq (n : Nat)
  deriving DecidableEq, Repr

/-- A statement `SELECT price, start_date, end_date FROM subscriptions WHERE ...` together
with the arguments passed along with it. -/
structure Query where
  conds : List Cond
  args : List Arg
  deriving DecidableEq, Repr

/-- Failures reported by the database for a statement. -/
inductive DbError where
  /-- The placeholders of the statement are not exactly `$1 .. $n` for the `n` bound
  arguments, or an argument has the wrong type for its column. -/
  | badParameters
  /-- No row for the key: `sql.ErrNoRows`, the error that `db.Get` reports for an id
  without row and that the handler `Get` answers with 404. -/
  | notFound
  /-- A bound value that its column cannot hold, as a `price` outside `INTEGER` or a
  `service_name` with a NUL byte. -/
  | valueOutOfRange
  deriving DecidableEq, Repr

/-- The placeholder number of a conjunct. -/
def Cond.param : Cond → Nat
  | .endDateNullOrGe n => n
  | .startDateLe n => n
  | .userIdEq n => n
  | .serviceNameEq n => n

/-- The argument bound at the placeholder of a conjunct has the type of its column. -/
def Cond.typed (args : List Arg) : Cond → Bool
  | .endDateNullOrGe n => match args[n - 1]? with
    | some (.time _) => true
    | _ => false
  | .startDateLe n => match args[n - 1]? with
    | some (.time _) => true
    | _ => false
  | .userIdEq n => match args[n - 1]? with
    | some (.uuid _) => true
    | _ => false
  | .serviceNameEq n => match args[n - 1]? with
    | some (.text _) => true
    | _ => false

/-- Truth of a conjunct on a table row, with the placeholder replaced by its argument. -/
def Cond.holds (args : List Arg) (s : Subscription) : Cond → Bool
  | .endDateNullOrGe n => match args[n - 1]? with
    | some (.time t) =>
      (match s.EndDate with
       | none => true
       | some e => !(e.Before t))
    | _ => false
  | .startDateLe n => match args[n - 1]? with
    | some (.time t) => !(t.Before s.StartDate)
    | _ => false
  | .userIdEq n => match args[n - 1]? with
    | some (.uuid u) => decide (s.UserID = u)
    | _ => false
  | .serviceNameEq n => match args[n - 1]? with
    | some (.text v) => decide (s.ServiceName = v)
    | _ => false

/-- The database accepts a statement with its arguments: every placeholder lies in
`1 .. n`, every number of `1 .. n` occurs as a placeholder (the type of an unreferenced
parameter cannot be determined), and every argument has the type of its column; here `n`
is the number of bound arguments. -/
def Query.bindable (q : Query) : Bool :=
  q.conds.all (fun c => decide (1 ≤ c.param) && decide (c.param ≤ q.args.length)) &&
  (List.range q.args.length).all (fun i => q.conds.any (fun c => decide (c.param = i + 1))) &&
  q.conds.all (fun c => c.typed q.args)

/-- The call `tx.Queryx(q, args...)` followed by the scan of every row: the rows of the
table that satisfy all conjuncts, or the error of a statement that cannot be bound. -/
def Queryx (db : List Subscription) (q : Query) : Except DbError (List row) :=
  if q.bindable then
    .ok ((db.filter (fun s => q.conds.all (fun c => c.holds q.args s))).map scanRow)
  else
    .error .badParameters

/-! ## `AggregateSum` -/

/-- The statement and the argument list that `AggregateSum` builds before it opens the
transaction. -/
def buildQuery (userID : Option UUID) (serviceName : Option String) (from_ to_ : Time) :
    Query :=
  let q0 : Query :=
    { conds := [Cond.endDateNullOrGe 1, Cond.startDateLe 2]
      args := [Arg.time from_, Arg.time to_] }
  let q1 : Query :=
    match userID with
    | some u => { conds := q0.conds ++ [Cond.userIdEq 3], args := q0.args ++ [Arg.uuid u] }
    | none => q0
  let q2 : Query :=
    match serviceName with
    | some v =>
      { conds := q1.conds ++ [Cond.serviceNameEq 4], args := q1.args ++ [Arg.text v] }
    | none => q1
  q2

/-- One iteration of the loop `for rows.Next()` of `AggregateSum`: the new value of
`total` after the scanned row `rrow`.  A `continue` leaves `total` as it is. -/
def aggStep (from_ to_ : Time) (total : Int) (rrow : row) : Int :=
  let s := rrow.StartDate
  let e := rrow.EndDate
  if e.Valid && e.Time.Before from_ then total
  else
    let start := maxTime s from_
    let end_ := if e.Valid && e.Time.Before to_ then e.Time else to_
    let months := monthsInclusive start end_
    if months ≤ 0 then total
    else toInt64 (total + toInt64 (months * rrow.Price))

/-- The loop of `AggregateSum` over the rows that the query yields, from `total = 0`. -/
def aggLoop (from_ to_ : Time) (rows : List row) : Int :=
  rows.foldl (aggStep from_ to_) 0

/-- The method `PostgresRepo.AggregateSum` on a table `db`: the error of the query, or
the total computed by the loop. -/
def AggregateSum (db : List Subscription) (userID : Option UUID)
    (serviceName : Option String) (from_ to_ : Time) : Except DbError Int :=
  match Queryx db (buildQuery userID serviceName from_ to_) with
  | .error err => .error err
  | .ok rows => .ok (aggLoop from_ to_ rows)

/-- What one row adds to the total: the effect of one iteration on `total = 0`, that is
`int64(months * rrow.Price)`, or `0` when the iteration ends in `continue`. -/
def contribution (from_ to_ : Time) (rrow : row) : Int :=
  aggStep from_ to_ 0 rrow

/-- The value of the variable `months` of one iteration, computed from `start` and `end`
as the loop body does. -/
def monthsUsed (from_ to_ : Time) (rrow : row) : Int :=
  let s := rrow.StartDate
  let e := rrow.EndDate
  let start := maxTime s from_
  let end_ := if e.Valid && e.Time.Before to_ then e.Time else to_
  monthsInclusive start end_

/-- The amount of one iteration before any reduction to 64 bits: the exact product
`months * rrow.Price`, or `0` when the iteration ends in `continue`. -/
def exactContribution (from_ to_ : Time) (rrow : row) : Int :=
  if rrow.EndDate.Valid && rrow.EndDate.Time.Before from_ then 0
  else if monthsUsed from_ to_ rrow ≤ 0 then 0
  else monthsUsed from_ to_ rrow * rrow.Price

/-- The window part of the `WHERE` clause, read on a scanned row:
`(end_date IS NULL OR end_date >= $1) AND start_date <= $2` with `from` and `to` bound. -/
def inWindow (from_ to_ : Time) (rrow : row) : Bool :=
  (!rrow.EndDate.Valid || !(rrow.EndDate.Time.Before from_)) &&
    !(to_.Before rrow.StartDate)

/-! ## Reference data of `integration_test.go` -/

/-- The user `uid` of the integration test. -/
def refUser : UUID := 1

/-- The subscription `s1`: service `S1`, price 100, from 2025-07, open-ended. -/
def refS1 : Subscription :=
  { ID := 11, ServiceName := "S1", Price := 100, UserID := refUser,
    StartDate := Time.date 2025 7 1, EndDate := none }

/-- The subscription `s2`: service `S2`, price 200, from 2025-06 to 2025-08. -/
def refS2 : Subscription :=
  { ID := 12, ServiceName := "S2", Price := 200, UserID := refUser,
    StartDate := Time.date 2025 6 1, EndDate := some (Time.date 2025 8 1) }

/-- The subscription `s3`: another user, service `S3`, price 1000, from 2025-07. -/
def refS3 : Subscription :=
  { ID := 13, ServiceName := "S3", Price := 1000, UserID := 2,
    StartDate := Time.date 2025 7 1, EndDate := none }

/-- The table after the three inserts of the integration test. -/
def refDb : List Subscription := [refS1, refS2, refS3]

/-- The lower end `from` of the window of the integration test. -/
def refFrom : Time := Time.date 2025 7 1

/-- The upper end `to` of the window of the integration test: 2025-09-30 23:59:59. -/
def refTo : Time :=
  { year := 2025, month := 9, day := 30, nsec := 86399000000000 }

/-! ## The aggregation as the specification words it -/

/-- The specification's `laterOf`: the maximum of two dates. -/
def laterOf (a b : Time) : Time :=
  if b.Before a then a else b

/-- The specification's `earlierOf`: the minimum of two dates. -/
def earlierOf (a b : Time) : Time :=
  if a.Before b then a else b

/-- The candidate predicate of the specification: `end_date` absent or `end_date >= from`,
`start_date <= to`, and each filter that is present equal to the record's field. -/
def specCandidate (userFilter : Option UUID) (serviceFilter : Option String)
    (from_ to_ : Time) (r : Subscription) : Bool :=
  (match r.EndDate with
   | none => true
   | some e => !(e.Before from_)) &&
  !(to_.Before r.StartDate) &&
  (match userFilter with
   | none => true
   | some u => decide (r.UserID = u)) &&
  (match serviceFilter with
   | none => true
   | some v => decide (r.ServiceName = v))

/-- The contribution of a candidate as the specification computes it, in exact integers:
`months * price` for `months = monthsInclusive(overlapStart, overlapEnd)`, and `0` when
`months <= 0`. -/
def specContribution (from_ to_ : Time) (r : Subscription) : Int :=
  let overlapStart := laterOf r.StartDate from_
  let overlapEnd := earlierOf (r.EndDate.getD to_) to_
  let months := monthsInclusive overlapStart overlapEnd
  if months ≤ 0 then 0 else months * r.Price

/-- The total of the specification: the exact sum of the contributions of the candidates. -/
def specTotal (db : List Subscription) (userFilter : Option UUID)
    (serviceFilter : Option String) (from_ to_ : Time) : Int :=
  ((db.filter (specCandidate userFilter serviceFilter from_ to_)).map
    (specContribution from_ to_)).sum

/-- The number of calendar months that lie both in the active period of a record (its
start month through its end month, without upper end when `end_date` is absent) and in
the window (the month of `from` through the month of `to`). -/
def specOverlapMonths (from_ to_ : Time) (r : Subscription) : Nat :=
  ((Finset.Icc from_.monthIndex to_.monthIndex).filter (fun m =>
    r.StartDate.monthIndex ≤ m ∧
      (match r.EndDate with
       | none => true
       | some e => decide (m ≤ e.monthIndex)) = true)).card

/-! ## The query text -/

/-- The text of a conjunct as `AggregateSum` writes it. -/
def Cond.sql : Cond → String
  | .endDateNullOrGe n => "(end_date IS NULL OR end_date >= $" ++ toString n ++ ")"
  | .startDateLe n => "start_date <= $" ++ toString n
  | .userIdEq n => "user_id = $" ++ toString n
  | .serviceNameEq n => "service_name = $" ++ toString n

/-- The text `q` of a statement: the conjuncts joined by ` AND ` after the `SELECT`. -/
def Query.text (q : Query) : String :=
  "SELECT price, start_date, end_date FROM subscriptions WHERE " ++
    " AND ".intercalate (q.conds.map Cond.sql)

/-- The numbers of the positional placeholders of a statement, in the order of the text. -/
def Query.placeholders (q : Query) : List Nat :=
  q.conds.map Cond.param

/-! ## `Update` and `Delete` -/

/-- The method `PostgresRepo.Update`: the returned `error` (`none` is `nil`) and the
table afterwards.  The method returns the error of `db.Exec` as it is and discards the
result of `Exec`, which holds the number of rows affected.  `execErr` is the error with
which `db.Exec` fails on this call, whatever its cause (a bound value that a column
cannot hold, a lost connection), and `none` when the statement executes; a statement that
fails changes nothing, and one that executes rewrites the rows with `id=$6`. -/
def Update (execErr : Option DbError) (db : List Subscription) (sub : Subscription) :
    Option DbError × List Subscription :=
  match execErr with
  | some err => (some err, db)
  | none =>
    (none, db.map (fun s =>
      if s.ID = sub.ID then
        { s with ServiceName := sub.ServiceName, Price := sub.Price, UserID := sub.UserID,
                 StartDate := sub.StartDate, EndDate := sub.EndDate }
      else s))

/-- The method `PostgresRepo.Delete`: the returned `error` (`none` is `nil`) and the
table afterwards.  As in `Update`, the error of `db.Exec` is returned as it is, the
result of `Exec` is discarded and `execErr` is the error of this call of `db.Exec`; a
statement that executes removes the rows with `id=$1`. -/
def Delete (execErr : Option DbError) (db : List Subscription) (id : UUID) :
    Option DbError × List Subscription :=
  match execErr with
  | some err => (some err, db)
  | none => (none, db.filter (fun s => !decide (s.ID = id)))

/-! ## The handler `Aggregate` -/

/-- A byte is an ASCII digit, as `isDigit` of package `time` tests it. -/
def isDigit (c : Char) : Bool :=
  decide ('0' ≤ c) && decide (c ≤ '9')

/-- The value of an ASCII digit. -/
def digitVal (c : Char) : Int :=
  (c.toNat : Int) - 48

/-- The function `parseMonthYear`, that is `time.Parse("01-2006", s)`: a month of two
digits in `01 .. 12`, the separator `-`, a year of four digits and nothing else; the
result is midnight of the first day of that month. -/
def parseMonthYear (s : String) : Option Time :=
  match s.toList with
  | [m1, m2, sep, y1, y2, y3, y4] =>
    if isDigit m1 && isDigit m2 && sep == '-' && isDigit y1 && isDigit y2 && isDigit y3
        && isDigit y4 then
      let month := digitVal m1 * 10 + digitVal m2
      let year := digitVal y1 * 1000 + digitVal y2 * 100 + digitVal y3 * 10 + digitVal y4
      if month ≤ 0 || 12 < month then none
      else some (Time.date year month 1)
    else none
  | _ => none

/-- Normalisation of a month number outside `1 .. 12`, carrying into the year, as
`time.Date` does. -/
def Time.normMonth (y m : Int) : Int × Int :=
  (y + (m - 1) / 12, (m - 1) % 12 + 1)

/-- Normalisation of a day number outside the month, moving month by month, as
`time.Date` does; `fuel` bounds the number of months to cross. -/
def Time.normDay : Nat → Int → Int → Int → Int × Int × Int
  | 0, y, m, d => (y, m, d)
  | fuel + 1, y, m, d =>
    if d < 1 then
      let p := Time.normMonth y (m - 1)
      Time.normDay fuel p.1 p.2 (d + Time.daysIn p.1 p.2)
    else if Time.daysIn y m < d then
      let p := Time.normMonth y (m + 1)
      Time.normDay fuel p.1 p.2 (d - Time.daysIn y m)
    else (y, m, d)

/-- The method `t.AddDate(years, months, days)`: the fields are added and the date is
normalised, the time of day being kept. -/
def Time.AddDate (t : Time) (years months days : Int) : Time :=
  let p := Time.normMonth (t.year + years) (t.month + months)
  let d := t.day + days
  let r := Time.normDay (d.natAbs + 1) p.1 p.2 d
  { year := r.1, month := r.2.1, day := r.2.2, nsec := t.nsec }

/-- The query parameters that `Aggregate` reads with `r.URL.Query().Get`: a parameter that
is missing reads as the empty string. -/
structure AggregateRequest where
  from_ : String
  to_ : String
  user_id : String
  service_name : String
  deriving DecidableEq, Repr

/-- The body of a response: `{"error": msg}` or `{"total": n}`. -/
inductive Body where
  | error (msg : String)
  | total (n : Int)
  deriving DecidableEq, Repr

/-- A response: the status code and the body. -/
structure Response where
  code : Nat
  body : Body
  deriving DecidableEq, Repr

/-- The arguments of one call of the repository's `AggregateSum`. -/
structure AggregateCall where
  userID : Option UUID
  serviceName : Option String
  from_ : Time
  to_ : Time
  deriving DecidableEq, Repr

/-- The method `writeError`. -/
def writeError (code : Nat) (msg : String) : Response :=
  { code := code, body := .error msg }

/-- The method `Handler.Aggregate`: the response and the calls made to the repository, in
order.  The repository `repo` is the interface value of the handler and `uuidParse` is
`uuid.Parse`, an error being `none`. -/
def Aggregate (uuidParse : String → Option UUID)
    (repo : Option UUID → Option String → Time → Time → Except DbError Int)
    (req : AggregateRequest) : Response × List AggregateCall :=
  let fromStr := req.from_
  let toStr := req.to_
  if fromStr == "" || toStr == "" then
    (writeError 400 "from and to are required in MM-YYYY format", [])
  else
    match parseMonthYear fromStr with
    | none => (writeError 400 "invalid from format", [])
    | some from_ =>
      let from_ := Time.date from_.year from_.month 1
      match parseMonthYear toStr with
      | none => (writeError 400 "invalid to format", [])
      | some toMonth =>
        let to_ := (Time.date toMonth.year toMonth.month 1).AddDate 0 1 (-1)
        let uid : Option (Option UUID) :=
          if req.user_id != "" then
            match uuidParse req.user_id with
            | none => none
            | some id => some (some id)
          else some none
        match uid with
        | none => (writeError 400 "invalid user_id", [])
        | some uid =>
          let serviceName : Option String :=
            if req.service_name != "" then some req.service_name else none
          let call : AggregateCall :=
            { userID := uid, serviceName := serviceName, from_ := from_, to_ := to_ }
          match repo uid serviceName from_ to_ with
          | .error _ => (writeError 500 "aggregation failed", [call])
          | .ok res => ({ code := 200, body := .total res }, [call])

/-- The mock repository of `TestAggregateHandler`: every call returns 1200. -/
def mockAggregate : Option UUID → Option String → Time → Time → Except DbError Int :=
  fun _ _ _ _ => .ok 1200

/-- The request of `TestAggregateHandler`: `from=07-2025&to=09-2025`. -/
def refRequest : AggregateRequest :=
  { from_ := "07-2025", to_ := "09-2025", user_id := "", service_name := "" }

/-! ## Facts about the order of instants -/

theorem Time.Before_iff (t u : Time) :
    t.Before u = true ↔
      (t.year < u.year ∨ (t.year = u.year ∧ (t.month < u.month ∨ (t.month = u.month ∧
        (t.day < u.day ∨ (t.day = u.day ∧ t.nsec < u.nsec)))))) := by
  simp [Time.Before]

theorem Time.Before_eq_false_iff (t u : Time) :
    t.Before u = false ↔
      ¬ (t.year < u.year ∨ (t.year = u.year ∧ (t.month < u.month ∨ (t.month = u.month ∧
        (t.day < u.day ∨ (t.day = u.day ∧ t.nsec < u.nsec)))))) := by
  rw [← Time.Before_iff]; simp

theorem Time.After_eq_Before (t u : Time) : t.After u = u.Before t := rfl

theorem Time.monthBefore_iff (t u : Time) :
    t.monthBefore u = true ↔ (t.year < u.year ∨ (t.year = u.year ∧ t.month < u.month)) := by
  simp [Time.monthBefore]

theorem Time.monthBefore_eq_false_iff (t u : Time) :
    t.monthBefore u = false ↔
      ¬ (t.year < u.year ∨ (t.year = u.year ∧ t.month < u.month)) := by
  rw [← Time.monthBefore_iff]; simp

theorem Time.valid_month {t : Time} (h : t.valid) : 1 ≤ t.month ∧ t.month ≤ 12 :=
  ⟨h.1, h.2.1⟩

theorem monthsInclusive_of_Before {a b : Time} (h : b.Before a = true) :
    monthsInclusive a b = 0 := by
  simp [monthsInclusive, h]

theorem monthsInclusive_of_not_Before {a b : Time} (h : b.Before a = false) :
    monthsInclusive a b = (b.year - a.year) * 12 + (b.month - a.month) + 1 := by
  simp [monthsInclusive, h]

/-- An instant that is not before another one does not lie in an earlier month. -/
theorem one_le_monthsInclusive {a b : Time} (ha : a.valid) (hb : b.valid)
    (h : b.Before a = false) : 1 ≤ monthsInclusive a b := by
  rw [monthsInclusive_of_not_Before h]
  have h1 := Time.valid_month ha
  have h2 := Time.valid_month hb
  rw [Time.Before_eq_false_iff] at h
  omega

/-! ## `monthsInclusive` -/

/-- C8. For month-dates `a` and `b`: when `a <= b` the value of `monthsInclusive a b` is
`(year b - year a) * 12 + (month b - month a) + 1` and it is at least 1; `monthsInclusive
a a` is 1; when `a > b` the value is 0, so the swapped call on a strictly ordered pair
gives 0. -/
theorem monthsInclusive_monthDates (a b : Time) (ha : a.isMonthDate) (hb : b.isMonthDate) :
    (b.Before a = false →
      monthsInclusive a b = (b.year - a.year) * 12 + (b.month - a.month) + 1 ∧
        1 ≤ monthsInclusive a b) ∧
    monthsInclusive a a = 1 ∧
    (b.Before a = true → monthsInclusive a b = 0) ∧
    (a.Before b = true → monthsInclusive b a = 0) := by
  refine ⟨fun h => ⟨monthsInclusive_of_not_Before h, one_le_monthsInclusive ha.1 hb.1 h⟩,
    ?_, fun h => monthsInclusive_of_Before h, fun h => monthsInclusive_of_Before h⟩
  have haa : a.Before a = false := by
    rw [Time.Before_eq_false_iff]; omega
  rw [monthsInclusive_of_not_Before haa]; omega

/-- Witness of C8 on July and September 2025: three months forwards, none backwards. -/
theorem monthsInclusive_monthDates_witness :
    (Time.date 2025 7 1).isMonthDate ∧ (Time.date 2025 9 1).isMonthDate ∧
    monthsInclusive (Time.date 2025 7 1) (Time.date 2025 9 1) = 3 ∧
    monthsInclusive (Time.date 2025 9 1) (Time.date 2025 7 1) = 0 :=
  have h := monthsInclusive_monthDates (Time.date 2025 7 1) (Time.date 2025 9 1)
    (by decide) (by decide)
  ⟨by decide, by decide, (h.1 (by decide)).1, h.2.2.2 (by decide)⟩

/-- C9, as stated, fails: 2025-07-15 and 2025-07-10 are dates of one calendar month, so
the month of the first is not after the month of the second, yet `monthsInclusive` gives
0 and not the value 1 of the formula. -/
theorem monthsInclusive_day_of_month_counterexample :
    ¬ (∀ a b : Time, a.valid → b.valid → b.monthBefore a = false →
        monthsInclusive a b = (b.year - a.year) * 12 + (b.month - a.month) + 1) := by
  intro h
  have h1 := h (Time.date 2025 7 15) (Time.date 2025 7 10) (by decide) (by decide)
    (by decide)
  revert h1
  decide

/-- C9, amended. For well-formed dates, `monthsInclusive a b` is `(year b - year a) * 12
+ (month b - month a) + 1` whenever `b` is not before `a` as an instant, in particular
whenever the month of `a` is strictly before the month of `b`, whatever the days; it is 0
exactly when `b` is before `a`, which is when the month of `b` precedes the month of `a`
or when, within one calendar month, the day and time of `b` are earlier than those of
`a`. -/
theorem monthsInclusive_by_instant (a b : Time) (ha : a.valid) (hb : b.valid) :
    (b.Before a = false →
      monthsInclusive a b = (b.year - a.year) * 12 + (b.month - a.month) + 1) ∧
    (a.monthBefore b = true →
      monthsInclusive a b = (b.year - a.year) * 12 + (b.month - a.month) + 1) ∧
    (monthsInclusive a b = 0 ↔ b.Before a = true) ∧
    (b.Before a = true ↔
      (b.monthBefore a = true ∨
        (b.year = a.year ∧ b.month = a.month ∧
          (b.day < a.day ∨ (b.day = a.day ∧ b.nsec < a.nsec))))) := by
  refine ⟨monthsInclusive_of_not_Before, ?_, ?_, ?_⟩
  · intro h
    apply monthsInclusive_of_not_Before
    rw [Time.monthBefore_iff] at h
    rw [Time.Before_eq_false_iff]
    omega
  · constructor
    · intro h0
      by_contra hn
      have hf : b.Before a = false := by simpa using hn
      have := one_le_monthsInclusive ha hb hf
      omega
    · exact monthsInclusive_of_Before
  · rw [Time.Before_iff, Time.monthBefore_iff]
    constructor <;> intro h <;> omega

/-- Witness of the amended C9: from 2025-07-15 to 2025-08-10 the count is 2. -/
theorem monthsInclusive_by_instant_witness :
    (Time.date 2025 7 15).valid ∧ (Time.date 2025 8 10).valid ∧
    monthsInclusive (Time.date 2025 7 15) (Time.date 2025 8 10) = 2 :=
  ⟨by decide, by decide,
    (monthsInclusive_by_instant (Time.date 2025 7 15) (Time.date 2025 8 10)
      (by decide) (by decide)).2.1 (by decide)⟩

/-- C10. For well-formed dates with any days, in either order, `monthsInclusive a b` is a
total function with a value `>= 0`: it is 0 when `b` is before `a`, and otherwise it is at
least 1, the month of `b` not being before the month of `a`. -/
theorem monthsInclusive_nonneg (a b : Time) (ha : a.valid) (hb : b.valid) :
    0 ≤ monthsInclusive a b ∧
    (b.Before a = true → monthsInclusive a b = 0) ∧
    (b.Before a = false → b.monthBefore a = false ∧ 1 ≤ monthsInclusive a b) := by
  refine ⟨?_, monthsInclusive_of_Before, fun h => ⟨?_, one_le_monthsInclusive ha hb h⟩⟩
  · cases h : b.Before a
    · have := one_le_monthsInclusive ha hb h
      omega
    · rw [monthsInclusive_of_Before h]
  · rw [Time.Before_eq_false_iff] at h
    rw [Time.monthBefore_eq_false_iff]
    omega

/-- Witness of C10 on the pair of the unit test `end before start`, in both orders. -/
theorem monthsInclusive_nonneg_witness :
    (Time.date 2025 9 1).valid ∧ (Time.date 2025 8 1).valid ∧
    monthsInclusive (Time.date 2025 9 1) (Time.date 2025 8 1) = 0 ∧
    1 ≤ monthsInclusive (Time.date 2025 8 1) (Time.date 2025 9 1) :=
  ⟨by decide, by decide,
    (monthsInclusive_nonneg (Time.date 2025 9 1) (Time.date 2025 8 1)
      (by decide) (by decide)).2.1 (by decide),
    ((monthsInclusive_nonneg (Time.date 2025 8 1) (Time.date 2025 9 1)
      (by decide) (by decide)).2.2 (by decide)).2⟩

/-! ## Arithmetic of `int64` -/

theorem toInt64_of_fits {x : Int} (h : fitsInt64 x) : toInt64 x = x := by
  unfold fitsInt64 at h
  unfold toInt64
  omega

theorem fitsInt64_toInt64 (x : Int) : fitsInt64 (toInt64 x) := by
  unfold fitsInt64 toInt64
  omega

theorem toInt64_add_toInt64 (x y : Int) :
    toInt64 (toInt64 x + toInt64 y) = toInt64 (x + y) := by
  unfold toInt64
  omega

theorem toInt64_zero : toInt64 0 = 0 := by
  unfold toInt64
  omega

/-! ## The loop of `AggregateSum` -/

theorem aggStep_toInt64 (from_ to_ : Time) (x : Int) (rrow : row) :
    aggStep from_ to_ (toInt64 x) rrow = toInt64 (x + exactContribution from_ to_ rrow) := by
  have hstep : aggStep from_ to_ (toInt64 x) rrow =
      if rrow.EndDate.Valid && rrow.EndDate.Time.Before from_ then toInt64 x
      else if monthsUsed from_ to_ rrow ≤ 0 then toInt64 x
      else toInt64 (toInt64 x + toInt64 (monthsUsed from_ to_ rrow * rrow.Price)) := rfl
  rw [hstep]
  unfold exactContribution
  by_cases h1 : (rrow.EndDate.Valid && rrow.EndDate.Time.Before from_) = true
  · simp [h1]
  · by_cases h2 : monthsUsed from_ to_ rrow ≤ 0
    · simp [h1, h2]
    · simp only [h1, h2, if_false, Bool.false_eq_true]
      rw [toInt64_add_toInt64]

theorem foldl_aggStep (from_ to_ : Time) (rows : List row) (x : Int) :
    rows.foldl (aggStep from_ to_) (toInt64 x) =
      toInt64 (x + (rows.map (exactContribution from_ to_)).sum) := by
  induction rows generalizing x with
  | nil => simp
  | cons r rs ih =>
    rw [List.foldl_cons, aggStep_toInt64, ih, List.map_cons, List.sum_cons, add_assoc]

/-- The loop returns the sum of the exact contributions, reduced to `int64`. -/
theorem aggLoop_eq_sum (from_ to_ : Time) (rows : List row) :
    aggLoop from_ to_ rows = toInt64 ((rows.map (exactContribution from_ to_)).sum) := by
  unfold aggLoop
  have h := foldl_aggStep from_ to_ rows 0
  rw [toInt64_zero, zero_add] at h
  exact h

/-! ## The query of `AggregateSum` -/

/-- Without a service filter, or with both filters, the statement is accepted and the
rows are those of the records that satisfy the candidate predicate. -/
theorem Queryx_buildQuery_ok (db : List Subscription) (userID : Option UUID)
    (serviceName : Option String) (from_ to_ : Time)
    (h : userID.isSome = true ∨ serviceName = none) :
    Queryx db (buildQuery userID serviceName from_ to_) =
      .ok ((db.filter (specCandidate userID serviceName from_ to_)).map scanRow) := by
  have hfilter : ∀ (p q : Subscription → Bool), (∀ s, p s = q s) →
      (db.filter p).map scanRow = (db.filter q).map scanRow := by
    intro p q hpq
    have : p = q := funext hpq
    rw [this]
  cases userID with
  | none =>
    cases serviceName with
    | none =>
      simp only [Queryx, buildQuery, Query.bindable]
      simp only [List.all_cons, List.all_nil, List.any_cons, List.any_nil, Cond.param,
        Cond.typed, List.length_cons, List.length_nil, List.range_succ, List.range_zero,
        List.nil_append, List.cons_append, List.getElem?_cons_zero,
        List.getElem?_cons_succ]
      simp only [Nat.reduceAdd, Nat.reduceSub, Nat.reduceLeDiff, Nat.reduceEqDiff,
        decide_True, decide_False, Bool.and_true, Bool.or_false, Bool.or_true,
        Bool.true_and, Bool.and_self, if_true, List.getElem?_cons_zero,
        List.getElem?_cons_succ, le_refl, Nat.one_le_ofNat]
      congr 1
      apply hfilter
      intro s
      simp [Cond.holds, specCandidate, Bool.and_assoc]
    | some v => simp at h
  | some u =>
    cases serviceName with
    | none =>
      have hq : buildQuery (some u) none from_ to_ =
          { conds := [Cond.endDateNullOrGe 1, Cond.startDateLe 2, Cond.userIdEq 3]
            args := [Arg.time from_, Arg.time to_, Arg.uuid u] } := rfl
      rw [hq]
      simp only [Queryx, Query.bindable]
      simp only [List.all_cons, List.all_nil, List.any_cons, List.any_nil, Cond.param,
        Cond.typed, List.length_cons, List.length_nil, List.range_succ, List.range_zero,
        List.nil_append, List.cons_append, List.getElem?_cons_zero,
        List.getElem?_cons_succ]
      simp only [Nat.reduceAdd, Nat.reduceSub, Nat.reduceLeDiff, Nat.reduceEqDiff,
        decide_True, decide_False, Bool.and_true, Bool.or_false, Bool.or_true,
        Bool.true_and, Bool.and_self, if_true, List.getElem?_cons_zero,
        List.getElem?_cons_succ, le_refl, Nat.one_le_ofNat]
      congr 1
      apply hfilter
      intro s
      simp [Cond.holds, specCandidate, Bool.and_assoc]
    | some v =>
      have hq : buildQuery (some u) (some v) from_ to_ =
          { conds := [Cond.endDateNullOrGe 1, Cond.startDateLe 2, Cond.userIdEq 3,
              Cond.serviceNameEq 4]
            args := [Arg.time from_, Arg.time to_, Arg.uuid u, Arg.text v] } := rfl
      rw [hq]
      simp only [Queryx, Query.bindable]
      simp only [List.all_cons, List.all_nil, List.any_cons, List.any_nil, Cond.param,
        Cond.typed, List.length_cons, List.length_nil, List.range_succ, List.range_zero,
        List.nil_append, List.cons_append, List.getElem?_cons_zero,
        List.getElem?_cons_succ]
      simp only [Nat.reduceAdd, Nat.reduceSub, Nat.reduceLeDiff, Nat.reduceEqDiff,
        decide_True, decide_False, Bool.and_true, Bool.or_false, Bool.or_true,
        Bool.true_and, Bool.and_self, if_true, List.getElem?_cons_zero,
        List.getElem?_cons_succ, le_refl, Nat.one_le_ofNat]
      congr 1
      apply hfilter
      intro s
      simp [Cond.holds, specCandidate, Bool.and_assoc]

/-- With a service filter and no user filter the statement mentions `$4` while three
arguments are bound: the database rejects it, whatever the table holds. -/
theorem Queryx_buildQuery_service_only (db : List Subscription) (v : String)
    (from_ to_ : Time) :
    Queryx db (buildQuery none (some v) from_ to_) = .error .badParameters := by
  have hq : buildQuery none (some v) from_ to_ =
      { conds := [Cond.endDateNullOrGe 1, Cond.startDateLe 2, Cond.serviceNameEq 4]
        args := [Arg.time from_, Arg.time to_, Arg.text v] } := rfl
  rw [hq]
  simp [Queryx, Query.bindable, Cond.param]

/-! ## The loop against the specification's contribution -/

theorem exactContribution_scanRow (from_ to_ : Time) (r : Subscription) :
    exactContribution from_ to_ (scanRow r) = specContribution from_ to_ r := by
  unfold exactContribution monthsUsed specContribution laterOf earlierOf maxTime scanRow
  simp only [Time.After_eq_Before]
  cases he : r.EndDate with
  | none =>
    have htt : to_.Before to_ = false := by
      rw [Time.Before_eq_false_iff]; omega
    simp [htt]
  | some e =>
    simp only [Bool.true_and, Option.getD_some]
    by_cases hg : e.Before from_ = true
    · simp only [hg, if_true]
      have hz : monthsInclusive (if from_.Before r.StartDate = true then r.StartDate else from_)
          (if e.Before to_ = true then e else to_) = 0 := by
        apply monthsInclusive_of_Before
        rw [Time.Before_iff] at hg
        split <;> split <;> rename_i h1 h2 <;>
          simp only [Time.Before_iff, Bool.not_eq_true, Time.Before_eq_false_iff] at h1 h2 ⊢ <;>
          omega
      simp [hz]
    · simp [hg]

/-- The outcome of `AggregateSum` for every combination of filters. -/
theorem AggregateSum_eq (db : List Subscription) (userID : Option UUID)
    (serviceName : Option String) (from_ to_ : Time) :
    AggregateSum db userID serviceName from_ to_ =
      if userID.isSome = true ∨ serviceName = none then
        .ok (toInt64 (specTotal db userID serviceName from_ to_))
      else .error .badParameters := by
  by_cases h : userID.isSome = true ∨ serviceName = none
  · rw [if_pos h]
    unfold AggregateSum
    rw [Queryx_buildQuery_ok db userID serviceName from_ to_ h]
    simp only []
    rw [aggLoop_eq_sum, List.map_map]
    have hfun : exactContribution from_ to_ ∘ scanRow = specContribution from_ to_ :=
      funext (exactContribution_scanRow from_ to_)
    rw [hfun]
    rfl
  · rw [if_neg h]
    cases userID with
    | some u => simp at h
    | none =>
      cases serviceName with
      | none => simp at h
      | some v =>
        unfold AggregateSum
        rw [Queryx_buildQuery_service_only]

/-- A record that is no candidate, or whose contribution is 0, can be added to the table
or removed from it without any change of the specification's total. -/
theorem specTotal_insert (db1 db2 : List Subscription) (r : Subscription)
    (userFilter : Option UUID) (serviceFilter : Option String) (from_ to_ : Time)
    (h : specCandidate userFilter serviceFilter from_ to_ r = false ∨
      specContribution from_ to_ r = 0) :
    specTotal (db1 ++ r :: db2) userFilter serviceFilter from_ to_ =
      specTotal (db1 ++ db2) userFilter serviceFilter from_ to_ := by
  unfold specTotal
  rw [List.filter_append, List.filter_append, List.map_append, List.map_append,
    List.sum_append, List.sum_append]
  congr 1
  by_cases hc : specCandidate userFilter serviceFilter from_ to_ r = true
  · have h0 : specContribution from_ to_ r = 0 := by
      rcases h with h | h
      · rw [hc] at h; cases h
      · exact h
    rw [List.filter_cons_of_pos hc, List.map_cons, List.sum_cons, h0, zero_add]
  · rw [List.filter_cons_of_neg hc]

theorem AggregateSum_insert (db1 db2 : List Subscription) (r : Subscription)
    (userID : Option UUID) (serviceName : Option String) (from_ to_ : Time)
    (h : specCandidate userID serviceName from_ to_ r = false ∨
      specContribution from_ to_ r = 0) :
    AggregateSum (db1 ++ r :: db2) userID serviceName from_ to_ =
      AggregateSum (db1 ++ db2) userID serviceName from_ to_ := by
  rw [AggregateSum_eq, AggregateSum_eq, specTotal_insert db1 db2 r _ _ _ _ h]

/-- An iteration that ends in `continue` leaves `total` as it is. -/
theorem aggStep_skip (from_ to_ : Time) (total : Int) (rrow : row)
    (h : (rrow.EndDate.Valid && rrow.EndDate.Time.Before from_) = true ∨
      monthsUsed from_ to_ rrow ≤ 0) : aggStep from_ to_ total rrow = total := by
  have hstep : aggStep from_ to_ total rrow =
      if rrow.EndDate.Valid && rrow.EndDate.Time.Before from_ then total
      else if monthsUsed from_ to_ rrow ≤ 0 then total
      else toInt64 (total + toInt64 (monthsUsed from_ to_ rrow * rrow.Price)) := rfl
  rw [hstep]
  by_cases h1 : (rrow.EndDate.Valid && rrow.EndDate.Time.Before from_) = true
  · rw [if_pos h1]
  · rw [if_neg h1]
    rcases h with h | h
    · exact absurd h h1
    · rw [if_pos h]

theorem exactContribution_skip (from_ to_ : Time) (rrow : row)
    (h : (rrow.EndDate.Valid && rrow.EndDate.Time.Before from_) = true ∨
      monthsUsed from_ to_ rrow ≤ 0) : exactContribution from_ to_ rrow = 0 := by
  unfold exactContribution
  by_cases h1 : (rrow.EndDate.Valid && rrow.EndDate.Time.Before from_) = true
  · rw [if_pos h1]
  · rw [if_neg h1]
    rcases h with h | h
    · exact absurd h h1
    · rw [if_pos h]

/-- A row outside the window makes the iteration end in `continue`: either the guard on
the end date fires, or the month count is 0. -/
theorem skip_out_of_window (from_ to_ : Time) (rrow : row)
    (h : inWindow from_ to_ rrow = false) :
    (rrow.EndDate.Valid && rrow.EndDate.Time.Before from_) = true ∨
      monthsUsed from_ to_ rrow ≤ 0 := by
  by_cases hg : (rrow.EndDate.Valid && rrow.EndDate.Time.Before from_) = true
  · exact Or.inl hg
  · right
    have hs : to_.Before rrow.StartDate = true := by
      unfold inWindow at h
      cases hv : rrow.EndDate.Valid <;> cases hb : rrow.EndDate.Time.Before from_ <;>
        cases hw : to_.Before rrow.StartDate <;> simp_all
    have hz : monthsUsed from_ to_ rrow = 0 := by
      unfold monthsUsed maxTime
      simp only [Time.After_eq_Before]
      apply monthsInclusive_of_Before
      rw [Time.Before_iff] at hs
      split <;> split <;> rename_i h1 h2 <;>
        simp only [Time.Before_iff, Bool.not_eq_true, Time.Before_eq_false_iff,
          Bool.and_eq_true] at h1 h2 ⊢ <;>
        omega
    rw [hz]

/-- The sum of the exact contributions does not see the rows outside the window. -/
theorem sum_filter_inWindow (from_ to_ : Time) (rows : List row) :
    ((rows.filter (inWindow from_ to_)).map (exactContribution from_ to_)).sum =
      (rows.map (exactContribution from_ to_)).sum := by
  induction rows with
  | nil => rfl
  | cons r rs ih =>
    by_cases hr : inWindow from_ to_ r = true
    · rw [List.filter_cons_of_pos hr, List.map_cons, List.sum_cons, ih, List.map_cons,
        List.sum_cons]
    · rw [List.filter_cons_of_neg hr, ih, List.map_cons, List.sum_cons,
        exactContribution_skip from_ to_ r
          (skip_out_of_window from_ to_ r (by simpa using hr)), zero_add]

/-- An inverted pair, `end_date` before `start_date`, gives the month count 0. -/
theorem monthsUsed_inverted (from_ to_ : Time) (r : Subscription) (e : Time)
    (he : r.EndDate = some e) (hinv : e.Before r.StartDate = true) :
    monthsUsed from_ to_ (scanRow r) = 0 := by
  unfold monthsUsed maxTime scanRow
  simp only [Time.After_eq_Before, he, Bool.true_and]
  apply monthsInclusive_of_Before
  rw [Time.Before_iff] at hinv
  split <;> split <;> rename_i h1 h2 <;>
    simp only [Time.Before_iff, Bool.not_eq_true, Time.Before_eq_false_iff] at h1 h2 ⊢ <;>
    omega

/-! ## `AggregateSum` -/

/-- C1. Whenever the store returns rows without error, `AggregateSum` returns the sum,
over the records that pass the candidate predicate, of `monthsInclusive(laterOf(start,
from), earlierOf(end or to, to)) * price`, a month count `<= 0` contributing 0.  The sum
is the one of the `int64` accumulator: it is the exact sum whenever that fits `int64`. -/
theorem AggregateSum_eq_specTotal (db : List Subscription) (userID : Option UUID)
    (serviceName : Option String) (from_ to_ : Time) (rows : List row)
    (hrows : Queryx db (buildQuery userID serviceName from_ to_) = .ok rows) :
    AggregateSum db userID serviceName from_ to_ =
      .ok (toInt64 (specTotal db userID serviceName from_ to_)) ∧
    (fitsInt64 (specTotal db userID serviceName from_ to_) →
      AggregateSum db userID serviceName from_ to_ =
        .ok (specTotal db userID serviceName from_ to_)) := by
  have hcomb : userID.isSome = true ∨ serviceName = none := by
    cases userID with
    | some u => exact Or.inl rfl
    | none =>
      cases serviceName with
      | none => exact Or.inr rfl
      | some v =>
        rw [Queryx_buildQuery_service_only] at hrows
        cases hrows
  have h := AggregateSum_eq db userID serviceName from_ to_
  rw [if_pos hcomb] at h
  refine ⟨h, fun hfit => ?_⟩
  rw [h, toInt64_of_fits hfit]

/-- Witness of C1 on the reference data with the user filter: the query yields the rows
of `s1` and `s2`, and the total is 700. -/
theorem AggregateSum_eq_specTotal_witness :
    Queryx refDb (buildQuery (some refUser) none refFrom refTo) =
      .ok [scanRow refS1, scanRow refS2] ∧
    specTotal refDb (some refUser) none refFrom refTo = 700 ∧
    AggregateSum refDb (some refUser) none refFrom refTo =
      .ok (specTotal refDb (some refUser) none refFrom refTo) :=
  have hq : Queryx refDb (buildQuery (some refUser) none refFrom refTo) =
      .ok [scanRow refS1, scanRow refS2] := by rfl
  ⟨hq, by decide,
    (AggregateSum_eq_specTotal refDb (some refUser) none refFrom refTo _ hq).2 (by decide)⟩

/-- C3, on the code: with a service filter and no user filter `AggregateSum` returns the
error of the database for every table and every window, the statement naming `$4` with
three arguments bound; on the reference data with the filter `S1` it fails likewise,
where the total of the records named `S1` is 300. -/
theorem AggregateSum_service_filter_only_fails :
    (∀ (db : List Subscription) (v : String) (from_ to_ : Time),
      AggregateSum db none (some v) from_ to_ = .error .badParameters) ∧
    AggregateSum refDb none (some "S1") refFrom refTo = .error .badParameters ∧
    specTotal refDb none (some "S1") refFrom refTo = 300 := by
  have hall : ∀ (db : List Subscription) (v : String) (from_ to_ : Time),
      AggregateSum db none (some v) from_ to_ = .error .badParameters := by
    intro db v from_ to_
    rw [AggregateSum_eq]
    simp
  exact ⟨hall, hall _ _ _ _, by decide⟩

/-- C4. With a user filter, alone or together with a service filter, a record whose
`user_id` differs from the user filter, or whose `service_name` is not exactly the service
filter, can be added to the table or removed from it, whatever its period and price,
without any change of the result of `AggregateSum`. -/
theorem AggregateSum_ignores_filtered_out (db1 db2 : List Subscription) (r : Subscription)
    (u : UUID) (serviceName : Option String) (from_ to_ : Time)
    (hfail : r.UserID ≠ u ∨ ∃ v, serviceName = some v ∧ r.ServiceName ≠ v) :
    AggregateSum (db1 ++ r :: db2) (some u) serviceName from_ to_ =
      AggregateSum (db1 ++ db2) (some u) serviceName from_ to_ := by
  apply AggregateSum_insert
  left
  unfold specCandidate
  rcases hfail with h | ⟨v, hv, h⟩
  · simp [h]
  · subst hv
    simp [h]

/-- Witness of C4 on the reference data: `s3`, of another user and with price 1000, adds
nothing to the total 700 of the user filter; a record of the same user named `S1x` or
`s1` adds nothing under the service filter `S1`. -/
theorem AggregateSum_ignores_filtered_out_witness :
    refS3.UserID ≠ refUser ∧
    AggregateSum ([refS1, refS2] ++ refS3 :: []) (some refUser) none refFrom refTo =
      AggregateSum ([refS1, refS2] ++ []) (some refUser) none refFrom refTo ∧
    AggregateSum [refS1, refS2, refS3] (some refUser) none refFrom refTo = .ok 700 ∧
    AggregateSum ([refS1] ++ { refS1 with ServiceName := "S1x" } :: [refS2])
        (some refUser) (some "S1") refFrom refTo =
      AggregateSum ([refS1] ++ [refS2]) (some refUser) (some "S1") refFrom refTo ∧
    AggregateSum ([refS1] ++ { refS1 with ServiceName := "s1" } :: [refS2])
        (some refUser) (some "S1") refFrom refTo =
      AggregateSum ([refS1] ++ [refS2]) (some refUser) (some "S1") refFrom refTo :=
  ⟨by decide,
    AggregateSum_ignores_filtered_out [refS1, refS2] [] refS3 refUser none refFrom refTo
      (Or.inl (by decide)),
    by rfl,
    AggregateSum_ignores_filtered_out [refS1] [refS2] { refS1 with ServiceName := "S1x" }
      refUser (some "S1") refFrom refTo (Or.inr ⟨"S1", rfl, by decide⟩),
    AggregateSum_ignores_filtered_out [refS1] [refS2] { refS1 with ServiceName := "s1" }
      refUser (some "S1") refFrom refTo (Or.inr ⟨"S1", rfl, by decide⟩)⟩

/-- C5. For every window, the loop of `AggregateSum` returns the same total on two
sequences of rows that are permutations of one another. -/
theorem aggLoop_perm (from_ to_ : Time) (rows1 rows2 : List row)
    (h : rows1.Perm rows2) : aggLoop from_ to_ rows1 = aggLoop from_ to_ rows2 := by
  rw [aggLoop_eq_sum, aggLoop_eq_sum, (h.map (exactContribution from_ to_)).sum_eq]

/-- Witness of C5: the rows of `s1` and `s2` in both orders. -/
theorem aggLoop_perm_witness :
    [scanRow refS1, scanRow refS2].Perm [scanRow refS2, scanRow refS1] ∧
    aggLoop refFrom refTo [scanRow refS1, scanRow refS2] =
      aggLoop refFrom refTo [scanRow refS2, scanRow refS1] :=
  ⟨List.Perm.swap _ _ _, aggLoop_perm refFrom refTo _ _ (List.Perm.swap _ _ _)⟩

/-- C6. A row whose end date is present and before `from`, or whose start date is after
`to`, leaves `total` as it is and contributes 0, also when the query did not remove it;
hence the loop returns the same total on any list of rows and on the rows of that list
that satisfy the window predicate of the `WHERE` clause. -/
theorem aggLoop_window_filter (from_ to_ : Time) (rrow : row) (rows : List row)
    (hout : (rrow.EndDate.Valid = true ∧ rrow.EndDate.Time.Before from_ = true) ∨
      to_.Before rrow.StartDate = true) :
    (∀ total : Int, aggStep from_ to_ total rrow = total) ∧
    contribution from_ to_ rrow = 0 ∧
    aggLoop from_ to_ (rows.filter (inWindow from_ to_)) = aggLoop from_ to_ rows := by
  have hw : inWindow from_ to_ rrow = false := by
    unfold inWindow
    rcases hout with ⟨h1, h2⟩ | h
    · simp [h1, h2]
    · simp [h]
  have hskip := skip_out_of_window from_ to_ rrow hw
  refine ⟨fun total => aggStep_skip from_ to_ total rrow hskip,
    aggStep_skip from_ to_ 0 rrow hskip, ?_⟩
  rw [aggLoop_eq_sum, aggLoop_eq_sum, sum_filter_inWindow]

/-- Witness of C6: a record that ended in May 2025, before the window of the reference
data, among the rows of `s1` and `s2`. -/
theorem aggLoop_window_filter_witness :
    (scanRow { refS2 with EndDate := some (Time.date 2025 5 1) }).EndDate.Time.Before
      refFrom = true ∧
    contribution refFrom refTo (scanRow { refS2 with EndDate := some (Time.date 2025 5 1) })
      = 0 :=
  ⟨by decide,
    (aggLoop_window_filter refFrom refTo
      (scanRow { refS2 with EndDate := some (Time.date 2025 5 1) })
      [scanRow refS1, scanRow refS2] (Or.inl ⟨rfl, by decide⟩)).2.1⟩

/-- C7. A record whose end date is present and earlier than its start date contributes
exactly 0 for every window: the month count of its iteration is 0, never negative, the
iteration leaves `total` as it is, and the record can be added to the table or removed
from it without any change of the result of `AggregateSum`, error or not. -/
theorem AggregateSum_inverted_pair (from_ to_ : Time) (r : Subscription) (e : Time)
    (he : r.EndDate = some e) (hinv : e.Before r.StartDate = true) :
    monthsUsed from_ to_ (scanRow r) = 0 ∧
    (∀ total : Int, aggStep from_ to_ total (scanRow r) = total) ∧
    contribution from_ to_ (scanRow r) = 0 ∧
    (∀ (db1 db2 : List Subscription) (userID : Option UUID) (serviceName : Option String),
      AggregateSum (db1 ++ r :: db2) userID serviceName from_ to_ =
        AggregateSum (db1 ++ db2) userID serviceName from_ to_) := by
  have hm := monthsUsed_inverted from_ to_ r e he hinv
  have hskip : (rrow : row) → rrow = scanRow r →
      ((rrow.EndDate.Valid && rrow.EndDate.Time.Before from_) = true ∨
        monthsUsed from_ to_ rrow ≤ 0) := by
    intro rrow hr
    right
    rw [hr, hm]
  refine ⟨hm, fun total => aggStep_skip from_ to_ total _ (hskip _ rfl),
    aggStep_skip from_ to_ 0 _ (hskip _ rfl), ?_⟩
  intro db1 db2 userID serviceName
  apply AggregateSum_insert
  right
  rw [← exactContribution_scanRow]
  exact exactContribution_skip from_ to_ _ (hskip _ rfl)

/-- Witness of C7: a record from 2025-08 with end date 2025-07, inside the window of the
reference data, has the month count 0. -/
theorem AggregateSum_inverted_pair_witness :
    (Time.date 2025 7 1).Before (Time.date 2025 8 1) = true ∧
    monthsUsed refFrom refTo (scanRow { refS2 with
      StartDate := Time.date 2025 8 1, EndDate := some (Time.date 2025 7 1) }) = 0 :=
  ⟨by decide,
    (AggregateSum_inverted_pair refFrom refTo { refS2 with
      StartDate := Time.date 2025 8 1, EndDate := some (Time.date 2025 7 1) }
      (Time.date 2025 7 1) rfl (by decide)).1⟩

/-! ## Month-normalised input -/

theorem card_filter_Icc (a b c d : Int) :
    ((Finset.Icc a b).filter (fun m => c ≤ m ∧ m ≤ d)).card =
      (min b d + 1 - max a c).toNat := by
  have h : (Finset.Icc a b).filter (fun m => c ≤ m ∧ m ≤ d) =
      Finset.Icc (max a c) (min b d) := by
    ext m
    simp only [Finset.mem_filter, Finset.mem_Icc, max_le_iff, le_min_iff]
    constructor <;> intro h <;> omega
  rw [h, Int.card_Icc]

theorem card_filter_Icc_lower (a b c : Int) :
    ((Finset.Icc a b).filter (fun m => c ≤ m)).card = (b + 1 - max a c).toNat := by
  have h : (Finset.Icc a b).filter (fun m => c ≤ m) = Finset.Icc (max a c) b := by
    ext m
    simp only [Finset.mem_filter, Finset.mem_Icc, max_le_iff]
    constructor <;> intro h <;> omega
  rw [h, Int.card_Icc]

theorem specOverlapMonths_eq (from_ to_ : Time) (r : Subscription) :
    (specOverlapMonths from_ to_ r : Int) =
      match r.EndDate with
      | none => max 0 (to_.monthIndex + 1 - max from_.monthIndex r.StartDate.monthIndex)
      | some e => max 0 (min to_.monthIndex e.monthIndex + 1 -
          max from_.monthIndex r.StartDate.monthIndex) := by
  unfold specOverlapMonths
  cases he : r.EndDate with
  | none =>
    simp only [and_true]
    rw [card_filter_Icc_lower]
    omega
  | some e =>
    simp only [decide_eq_true_eq]
    rw [card_filter_Icc]
    omega

theorem contribution_eq (from_ to_ : Time) (rrow : row) :
    contribution from_ to_ rrow = toInt64 (exactContribution from_ to_ rrow) := by
  have h := aggStep_toInt64 from_ to_ 0 rrow
  rw [toInt64_zero, zero_add] at h
  exact h

/-- On month-normalised input the clamped month count of the specification's contribution
is the number of months shared by the active period and the window. -/
theorem specContribution_normalised (from_ to_ : Time) (r : Subscription)
    (hs : r.StartDate.isMonthDate)
    (he : ∀ e, r.EndDate = some e → e.isMonthDate ∧ e.Before r.StartDate = false)
    (hf : from_.isMonthDate) (ht : to_.valid) (hft : to_.Before from_ = false) :
    specContribution from_ to_ r = r.Price * (specOverlapMonths from_ to_ r : Int) := by
  obtain ⟨⟨hs1, hs2, -, -, -, -⟩, hsd, hsn⟩ := hs
  obtain ⟨⟨hf1, hf2, -, -, -, -⟩, hfd, hfn⟩ := hf
  obtain ⟨ht1, ht2, ht3, -, ht5, -⟩ := ht
  rw [Time.Before_eq_false_iff] at hft
  have hmonths : (if monthsInclusive (laterOf r.StartDate from_)
        (earlierOf (r.EndDate.getD to_) to_) ≤ 0 then 0
      else monthsInclusive (laterOf r.StartDate from_) (earlierOf (r.EndDate.getD to_) to_)) =
        (specOverlapMonths from_ to_ r : Int) := by
    rw [specOverlapMonths_eq]
    unfold monthsInclusive laterOf earlierOf Time.monthIndex
    cases hend : r.EndDate with
    | none =>
      simp only [Option.getD_none]
      split_ifs <;> rename_i h1 h2 h3 h4 <;>
        simp only [Time.Before_iff, Bool.not_eq_true, Time.Before_eq_false_iff,
          not_le, not_lt] at * <;>
        omega
    | some e =>
      obtain ⟨⟨⟨he1, he2, -, -, -, -⟩, hed, hen⟩, hes⟩ := he e hend
      rw [Time.Before_eq_false_iff] at hes
      simp only [Option.getD_some]
      split_ifs <;> rename_i h1 h2 h3 h4 <;>
        simp only [Time.Before_iff, Bool.not_eq_true, Time.Before_eq_false_iff,
          not_le, not_lt] at * <;>
        omega
  unfold specContribution
  simp only []
  rw [← hmonths]
  split_ifs <;> ring

/-- C2. For month-normalised input (start date and present end date are month-dates with
`end_date >= start_date`, `from` is a month-date, `to` is any day of its month and `from
<= to`) the contribution of a record in `AggregateSum` is `price` times the number of
calendar months that lie both in the active period of the record and in the window.  The
product is the one of Go's `int`: it is the exact product whenever that fits 64 bits. -/
theorem contribution_normalised (from_ to_ : Time) (r : Subscription)
    (hs : r.StartDate.isMonthDate)
    (he : ∀ e, r.EndDate = some e → e.isMonthDate ∧ e.Before r.StartDate = false)
    (hf : from_.isMonthDate) (ht : to_.valid) (hft : to_.Before from_ = false) :
    contribution from_ to_ (scanRow r) =
      toInt64 (r.Price * (specOverlapMonths from_ to_ r : Int)) ∧
    (fitsInt64 (r.Price * (specOverlapMonths from_ to_ r : Int)) →
      contribution from_ to_ (scanRow r) =
        r.Price * (specOverlapMonths from_ to_ r : Int)) := by
  have h : contribution from_ to_ (scanRow r) =
      toInt64 (r.Price * (specOverlapMonths from_ to_ r : Int)) := by
    rw [contribution_eq, exactContribution_scanRow,
      specContribution_normalised from_ to_ r hs he hf ht hft]
  exact ⟨h, fun hfit => by rw [h, toInt64_of_fits hfit]⟩

/-- Witness of C2 on the reference data: `s2` (2025-06 to 2025-08, price 200) shares two
months with the window 2025-07 to 2025-09 and contributes 400, as the loop computes; the
open-ended `s1` (from 2025-07, price 100) contributes 300. -/
theorem contribution_normalised_witness :
    refS2.StartDate.isMonthDate ∧ refFrom.isMonthDate ∧ refTo.valid ∧
    refTo.Before refFrom = false ∧
    specOverlapMonths refFrom refTo refS2 = 2 ∧
    contribution refFrom refTo (scanRow refS2) =
      refS2.Price * (specOverlapMonths refFrom refTo refS2 : Int) ∧
    contribution refFrom refTo (scanRow refS2) = 400 ∧
    contribution refFrom refTo (scanRow refS1) = 300 :=
  ⟨by decide, by decide, by decide, by decide, by decide,
    (contribution_normalised refFrom refTo refS2 (by decide)
      (fun e h => by
        have he : e = Time.date 2025 8 1 := by
          have h2 : some (Time.date 2025 8 1) = some e := h
          exact (Option.some.inj h2).symm
        subst he
        exact ⟨by decide, by decide⟩)
      (by decide) (by decide) (by decide)).2 (by decide),
    by decide, by decide⟩

/-! ## `Update` and `Delete` on an absent id -/

theorem map_update_absent (db : List Subscription) (sub : Subscription)
    (h : ∀ s ∈ db, s.ID ≠ sub.ID) :
    db.map (fun s =>
      if s.ID = sub.ID then
        { s with ServiceName := sub.ServiceName, Price := sub.Price, UserID := sub.UserID,
                 StartDate := sub.StartDate, EndDate := sub.EndDate }
      else s) = db := by
  induction db with
  | nil => rfl
  | cons a l ih =>
    have ha : a.ID ≠ sub.ID := h a (List.mem_cons_self a l)
    have hl : ∀ s ∈ l, s.ID ≠ sub.ID := fun s hs => h s (List.mem_cons_of_mem a hs)
    rw [List.map_cons, ih hl, if_neg ha]

theorem filter_delete_absent (db : List Subscription) (id : UUID)
    (h : ∀ s ∈ db, s.ID ≠ id) :
    db.filter (fun s => !decide (s.ID = id)) = db := by
  rw [List.filter_eq_self]
  intro s hs
  simp [h s hs]

/-- C11, as stated, fails: on the reference table, whose ids are 11, 12 and 13, and with
a statement that the database executes, `Update` of a record carrying the id 99 and
`Delete` of the id 99 do not fail with `notFound`. -/
theorem Update_Delete_absent_counterexample :
    ¬ (∀ (db : List Subscription) (sub : Subscription), (∀ s ∈ db, s.ID ≠ sub.ID) →
        (Update none db sub).1 = some .notFound ∧
        (Delete none db sub.ID).1 = some .notFound) := by
  intro h
  have h1 := (h refDb { refS1 with ID := 99 } (by decide)).2
  simp [Delete] at h1

/-- C11, amended. For every table and every id that is not the id of a stored record,
`Update` of a record carrying that id and `Delete` of that id leave the stored records
unchanged and return the error of `db.Exec` as it is: `nil` when the statement executes,
the absent id giving no `notFound` of its own. -/
theorem Update_Delete_absent (db : List Subscription) (sub : Subscription) (id : UUID)
    (hsub : ∀ s ∈ db, s.ID ≠ sub.ID) (hid : ∀ s ∈ db, s.ID ≠ id) :
    (∀ execErr : Option DbError, Update execErr db sub = (execErr, db)) ∧
    (∀ execErr : Option DbError, Delete execErr db id = (execErr, db)) ∧
    Update none db sub = (none, db) ∧
    Delete none db id = (none, db) := by
  have hu : ∀ execErr : Option DbError, Update execErr db sub = (execErr, db) := by
    intro execErr
    cases execErr with
    | some err => rfl
    | none =>
      unfold Update
      simp only []
      rw [map_update_absent db sub hsub]
  have hd : ∀ execErr : Option DbError, Delete execErr db id = (execErr, db) := by
    intro execErr
    cases execErr with
    | some err => rfl
    | none =>
      unfold Delete
      simp only []
      rw [filter_delete_absent db id hid]
  exact ⟨hu, hd, hu none, hd none⟩

/-- Witness of the amended C11 on the reference table and the absent id 99: success when
the statement executes, and the error of `db.Exec` when it does not. -/
theorem Update_Delete_absent_witness :
    (∀ s ∈ refDb, s.ID ≠ 99) ∧
    Update none refDb { refS1 with ID := 99 } = (none, refDb) ∧
    Delete none refDb 99 = (none, refDb) ∧
    Update (some .valueOutOfRange) refDb { refS1 with ID := 99 } =
      (some .valueOutOfRange, refDb) :=
  have h := Update_Delete_absent refDb { refS1 with ID := 99 } 99 (by decide) (by decide)
  ⟨by decide, h.2.2.1, h.2.2.2, h.1 (some .valueOutOfRange)⟩

/-! ## The placeholders of the statement -/

/-- C14, on the code: without filter, with the user filter alone and with both filters the
placeholders are `$1 .. $n` for the `n` bound arguments, each value at the position its
placeholder names; with the service filter alone the text names `$1`, `$2` and `$4`
while three arguments are bound, the service name standing at position 3 and no argument
at position 4. -/
theorem buildQuery_placeholders :
    (∀ from_ to_ : Time,
      (buildQuery none none from_ to_).placeholders = [1, 2] ∧
      (buildQuery none none from_ to_).args = [Arg.time from_, Arg.time to_]) ∧
    (∀ (u : UUID) (from_ to_ : Time),
      (buildQuery (some u) none from_ to_).placeholders = [1, 2, 3] ∧
      (buildQuery (some u) none from_ to_).args =
        [Arg.time from_, Arg.time to_, Arg.uuid u]) ∧
    (∀ (u : UUID) (v : String) (from_ to_ : Time),
      (buildQuery (some u) (some v) from_ to_).placeholders = [1, 2, 3, 4] ∧
      (buildQuery (some u) (some v) from_ to_).args =
        [Arg.time from_, Arg.time to_, Arg.uuid u, Arg.text v]) ∧
    (∀ (v : String) (from_ to_ : Time),
      (buildQuery none (some v) from_ to_).placeholders = [1, 2, 4] ∧
      (buildQuery none (some v) from_ to_).args =
        [Arg.time from_, Arg.time to_, Arg.text v] ∧
      (buildQuery none (some v) from_ to_).args[4 - 1]? = none ∧
      (buildQuery none (some v) from_ to_).args[3 - 1]? = some (Arg.text v) ∧
      (buildQuery none (some v) from_ to_).text =
        "SELECT price, start_date, end_date FROM subscriptions WHERE (end_date IS NULL OR end_date >= $1) AND start_date <= $2 AND service_name = $4") :=
  ⟨fun _ _ => ⟨rfl, rfl⟩, fun _ _ _ => ⟨rfl, rfl⟩, fun _ _ _ _ => ⟨rfl, rfl⟩,
    fun _ _ _ => ⟨rfl, rfl, rfl, rfl, by rfl⟩⟩

/-! ## Absence of wraparound -/

/-- The exact amount of a row with a price in `[0, 2 ^ 31 - 1]` and at most 1200 months
lies in `[0, 1200 * (2 ^ 31 - 1)]`. -/
theorem exactContribution_bounds (from_ to_ : Time) (rrow : row)
    (hp0 : 0 ≤ rrow.Price) (hp1 : rrow.Price ≤ 2 ^ 31 - 1)
    (hm : monthsUsed from_ to_ rrow ≤ 1200) :
    0 ≤ exactContribution from_ to_ rrow ∧
      exactContribution from_ to_ rrow ≤ 1200 * (2 ^ 31 - 1) := by
  unfold exactContribution
  by_cases h1 : (rrow.EndDate.Valid && rrow.EndDate.Time.Before from_) = true
  · rw [if_pos h1]
    norm_num
  · rw [if_neg h1]
    by_cases h2 : monthsUsed from_ to_ rrow ≤ 0
    · rw [if_pos h2]
      norm_num
    · rw [if_neg h2]
      have hm0 : 0 ≤ monthsUsed from_ to_ rrow := by omega
      constructor
      · exact Int.mul_nonneg hm0 hp0
      · exact Int.mul_le_mul hm hp1 hp0 (by norm_num)

/-- The exact sum of at most `n` such amounts lies in `[0, n * 1200 * (2 ^ 31 - 1)]`. -/
theorem sum_exactContribution_bounds (from_ to_ : Time) (rows : List row)
    (hrow : ∀ r ∈ rows, 0 ≤ r.Price ∧ r.Price ≤ 2 ^ 31 - 1 ∧
      monthsUsed from_ to_ r ≤ 1200) :
    0 ≤ (rows.map (exactContribution from_ to_)).sum ∧
      (rows.map (exactContribution from_ to_)).sum ≤
        (rows.length : Int) * (1200 * (2 ^ 31 - 1)) := by
  induction rows with
  | nil => simp
  | cons a l ih =>
    have ha := hrow a (List.mem_cons_self a l)
    have hb := exactContribution_bounds from_ to_ a ha.1 ha.2.1 ha.2.2
    have hl := ih (fun r hr => hrow r (List.mem_cons_of_mem a hr))
    rw [List.map_cons, List.sum_cons, List.length_cons]
    push_cast
    constructor
    · linarith [hb.1, hl.1]
    · linarith [hb.2, hl.2]

theorem aggLoop_exact_of_bounds (from_ to_ : Time) (rows : List row)
    (hrow : ∀ r ∈ rows, 0 ≤ r.Price ∧ r.Price ≤ 2 ^ 31 - 1 ∧
      monthsUsed from_ to_ r ≤ 1200)
    (hlen : rows.length ≤ 2 ^ 20) :
    aggLoop from_ to_ rows = (rows.map (exactContribution from_ to_)).sum := by
  rw [aggLoop_eq_sum]
  apply toInt64_of_fits
  have hb := sum_exactContribution_bounds from_ to_ rows hrow
  have hl : (rows.length : Int) ≤ 2 ^ 20 := by exact_mod_cast hlen
  have hmul : (rows.length : Int) * (1200 * (2 ^ 31 - 1)) ≤
      2 ^ 20 * (1200 * (2 ^ 31 - 1)) :=
    Int.mul_le_mul_of_nonneg_right hl (by norm_num)
  unfold fitsInt64
  constructor
  · have : (-(2 ^ 63) : Int) ≤ 0 := by norm_num
    omega
  · have : (2 ^ 20 * (1200 * (2 ^ 31 - 1)) : Int) < 2 ^ 63 := by norm_num
    omega

/-- C13. When every row has a price in `[0, 2 ^ 31 - 1]` and a month count of at most
1200, and there are at most `2 ^ 20` rows, the product `months * price` formed in `int`
is the exact product, the contribution added is the exact amount, and the `int64` total
is the exact sum after every iteration and at the end: nothing wraps around. -/
theorem aggLoop_no_wraparound (from_ to_ : Time) (rows : List row)
    (hrow : ∀ r ∈ rows, 0 ≤ r.Price ∧ r.Price ≤ 2 ^ 31 - 1 ∧
      monthsUsed from_ to_ r ≤ 1200)
    (hlen : rows.length ≤ 2 ^ 20) :
    (∀ r ∈ rows,
      (0 < monthsUsed from_ to_ r →
        toInt64 (monthsUsed from_ to_ r * r.Price) = monthsUsed from_ to_ r * r.Price) ∧
      contribution from_ to_ r = exactContribution from_ to_ r) ∧
    (∀ k : Nat, aggLoop from_ to_ (rows.take k) =
      ((rows.take k).map (exactContribution from_ to_)).sum) ∧
    aggLoop from_ to_ rows = (rows.map (exactContribution from_ to_)).sum := by
  refine ⟨?_, ?_, aggLoop_exact_of_bounds from_ to_ rows hrow hlen⟩
  · intro r hr
    obtain ⟨hp0, hp1, hm⟩ := hrow r hr
    constructor
    · intro hpos
      apply toInt64_of_fits
      have h0 : 0 ≤ monthsUsed from_ to_ r * r.Price := Int.mul_nonneg (by omega) hp0
      have h1 : monthsUsed from_ to_ r * r.Price ≤ 1200 * (2 ^ 31 - 1) :=
        Int.mul_le_mul hm hp1 hp0 (by norm_num)
      unfold fitsInt64
      constructor
      · have : (-(2 ^ 63) : Int) ≤ 0 := by norm_num
        omega
      · have : (1200 * (2 ^ 31 - 1) : Int) < 2 ^ 63 := by norm_num
        omega
    · rw [contribution_eq]
      apply toInt64_of_fits
      have hb := exactContribution_bounds from_ to_ r hp0 hp1 hm
      unfold fitsInt64
      constructor
      · have : (-(2 ^ 63) : Int) ≤ 0 := by norm_num
        omega
      · have : (1200 * (2 ^ 31 - 1) : Int) < 2 ^ 63 := by norm_num
        omega
  · intro k
    apply aggLoop_exact_of_bounds
    · intro r hr
      exact hrow r (List.mem_of_mem_take hr)
    · rw [List.length_take]
      exact le_trans (min_le_right _ _) hlen

/-- Witness of C13 on the rows of the reference table: the total is the exact 3700. -/
theorem aggLoop_no_wraparound_witness :
    (∀ r ∈ refDb.map scanRow, 0 ≤ r.Price ∧ r.Price ≤ 2 ^ 31 - 1 ∧
      monthsUsed refFrom refTo r ≤ 1200) ∧
    aggLoop refFrom refTo (refDb.map scanRow) =
      ((refDb.map scanRow).map (exactContribution refFrom refTo)).sum ∧
    ((refDb.map scanRow).map (exactContribution refFrom refTo)).sum = 3700 :=
  ⟨by decide,
    (aggLoop_no_wraparound refFrom refTo (refDb.map scanRow) (by decide)
      (by decide)).2.2,
    by decide⟩

/-! ## The handler `Aggregate` -/

theorem parseMonthYear_empty : parseMonthYear "" = none := rfl

/-- A parsed month is midnight of the first day of a month in `1 .. 12`. -/
theorem parseMonthYear_some {s : String} {f : Time} (h : parseMonthYear s = some f) :
    1 ≤ f.month ∧ f.month ≤ 12 ∧ f.day = 1 ∧ f.nsec = 0 := by
  unfold parseMonthYear at h
  split at h
  · split at h
    · simp only [] at h
      split at h
      · cases h
      · rename_i hm
        simp only [Bool.or_eq_true, decide_eq_true_eq, not_or, not_le, not_lt] at hm
        have hf := Option.some.inj h
        subst hf
        exact ⟨by simp only [Time.date]; omega, by simp only [Time.date]; omega, rfl, rfl⟩
    · cases h
  · cases h

/-- The last day of a month: `time.Date(y, m, 1, ...).AddDate(0, 1, -1)`. -/
theorem AddDate_last_day (y m : Int) (h1 : 1 ≤ m) (h12 : m ≤ 12) :
    (Time.date y m 1).AddDate 0 1 (-1) = Time.date y m (Time.daysIn y m) := by
  have hm : m = 1 ∨ m = 2 ∨ m = 3 ∨ m = 4 ∨ m = 5 ∨ m = 6 ∨ m = 7 ∨ m = 8 ∨ m = 9 ∨
      m = 10 ∨ m = 11 ∨ m = 12 := by omega
  rcases hm with h | h | h | h | h | h | h | h | h | h | h | h <;> subst h <;>
    simp [Time.AddDate, Time.date, Time.normMonth, Time.normDay]

/-- C12. When `from` and `to` parse as `MM-YYYY` and `user_id` is absent or a UUID, the
handler calls the repository's `AggregateSum` exactly once, with `from` the first day of
the month of `from` and `to` the last day of the month of `to`, and answers 200 with the
total that the repository returned, or 500 when the repository returned an error; when
`from` or `to` is missing or does not parse, or `user_id` is present and no UUID, it
answers 400 and does not call the repository. -/
theorem Aggregate_spec (uuidParse : String → Option UUID)
    (repo : Option UUID → Option String → Time → Time → Except DbError Int)
    (req : AggregateRequest) :
    (∀ (f t : Time) (uid : Option UUID),
      parseMonthYear req.from_ = some f → parseMonthYear req.to_ = some t →
      ((req.user_id = "" ∧ uid = none) ∨
        (req.user_id ≠ "" ∧ ∃ u, uuidParse req.user_id = some u ∧ uid = some u)) →
      (Aggregate uuidParse repo req).2 =
        [{ userID := uid
           serviceName := if req.service_name = "" then none else some req.service_name
           from_ := Time.date f.year f.month 1
           to_ := Time.date t.year t.month (Time.daysIn t.year t.month) }] ∧
      (∀ n : Int,
        repo uid (if req.service_name = "" then none else some req.service_name)
          (Time.date f.year f.month 1)
          (Time.date t.year t.month (Time.daysIn t.year t.month)) = .ok n →
        (Aggregate uuidParse repo req).1 = { code := 200, body := .total n }) ∧
      (∀ e : DbError,
        repo uid (if req.service_name = "" then none else some req.service_name)
          (Time.date f.year f.month 1)
          (Time.date t.year t.month (Time.daysIn t.year t.month)) = .error e →
        (Aggregate uuidParse repo req).1.code = 500)) ∧
    ((req.from_ = "" ∨ req.to_ = "" ∨ parseMonthYear req.from_ = none ∨
        parseMonthYear req.to_ = none ∨
        (req.user_id ≠ "" ∧ uuidParse req.user_id = none)) →
      (Aggregate uuidParse repo req).1.code = 400 ∧
      (Aggregate uuidParse repo req).2 = []) := by
  constructor
  · intro f t uid hpf hpt huid
    have hf0 : req.from_ ≠ "" := by
      intro h0
      rw [h0, parseMonthYear_empty] at hpf
      cases hpf
    have ht0 : req.to_ ≠ "" := by
      intro h0
      rw [h0, parseMonthYear_empty] at hpt
      cases hpt
    obtain ⟨ht1, ht12, -, -⟩ := parseMonthYear_some hpt
    have hlast := AddDate_last_day t.year t.month ht1 ht12
    rcases huid with ⟨hu, rfl⟩ | ⟨hu, u, hpu, rfl⟩
    · by_cases hs : req.service_name = ""
      · cases hr : repo none none (Time.date f.year f.month 1)
          (Time.date t.year t.month (Time.daysIn t.year t.month)) <;>
          simp [Aggregate, hf0, ht0, hpf, hpt, hlast, hu, hs, hr, writeError]
      · cases hr : repo none (some req.service_name) (Time.date f.year f.month 1)
          (Time.date t.year t.month (Time.daysIn t.year t.month)) <;>
          simp [Aggregate, hf0, ht0, hpf, hpt, hlast, hu, hs, hr, writeError]
    · by_cases hs : req.service_name = ""
      · cases hr : repo (some u) none (Time.date f.year f.month 1)
          (Time.date t.year t.month (Time.daysIn t.year t.month)) <;>
          simp [Aggregate, hf0, ht0, hpf, hpt, hlast, hu, hpu, hs, hr, writeError]
      · cases hr : repo (some u) (some req.service_name) (Time.date f.year f.month 1)
          (Time.date t.year t.month (Time.daysIn t.year t.month)) <;>
          simp [Aggregate, hf0, ht0, hpf, hpt, hlast, hu, hpu, hs, hr, writeError]
  · intro h
    by_cases h0 : req.from_ = "" ∨ req.to_ = ""
    · rcases h0 with h0 | h0 <;> simp [Aggregate, h0, writeError]
    · have hf0 : req.from_ ≠ "" := fun hc => h0 (Or.inl hc)
      have ht0 : req.to_ ≠ "" := fun hc => h0 (Or.inr hc)
      cases hpf : parseMonthYear req.from_ with
      | none => simp [Aggregate, hf0, ht0, hpf, writeError]
      | some f =>
        cases hpt : parseMonthYear req.to_ with
        | none => simp [Aggregate, hf0, ht0, hpf, hpt, writeError]
        | some t =>
          rcases h with h | h | h | h | ⟨hu, hpu⟩
          · exact absurd h hf0
          · exact absurd h ht0
          · rw [hpf] at h; cases h
          · rw [hpt] at h; cases h
          · simp [Aggregate, hf0, ht0, hpf, hpt, hu, hpu, writeError]

/-- Witness of C12 on the request of `TestAggregateHandler`: one call, from 2025-07-01 to
2025-09-30, and the answer 200 with the total 1200 of the mock repository. -/
theorem Aggregate_spec_witness :
    parseMonthYear refRequest.from_ = some (Time.date 2025 7 1) ∧
    parseMonthYear refRequest.to_ = some (Time.date 2025 9 1) ∧
    (Aggregate (fun _ => none) mockAggregate refRequest).2 =
      [{ userID := none, serviceName := none, from_ := Time.date 2025 7 1,
         to_ := Time.date 2025 9 30 }] ∧
    (Aggregate (fun _ => none) mockAggregate refRequest).1 =
      { code := 200, body := .total 1200 } ∧
    (Aggregate (fun _ => none) mockAggregate { refRequest with from_ := "2025-07" }).1.code
      = 400 :=
  have h := Aggregate_spec (fun _ => none) mockAggregate refRequest
  have h' := Aggregate_spec (fun _ => none) mockAggregate
    { refRequest with from_ := "2025-07" }
  ⟨by decide, by decide,
    (h.1 (Time.date 2025 7 1) (Time.date 2025 9 1) none (by decide) (by decide)
      (Or.inl ⟨rfl, rfl⟩)).1,
    (h.1 (Time.date 2025 7 1) (Time.date 2025 9 1) none (by decide) (by decide)
      (Or.inl ⟨rfl, rfl⟩)).2.1 1200 rfl,
    (h'.2 (Or.inr (Or.inr (Or.inl (by decide))))).1⟩

end Subscriptions
